import Mathlib

/-!
Verification of the intake poller (`.github/workflow-scripts/maverick/intake_poller.py`).

The development shallowly embeds the pure data manipulation and the
effect sequencing of `main` as Lean functions.  Remote calls issued by
the script (field creation, comment posting, field value writes, status
mutation, and the dispatch invocation) are recorded in a trace of
`Call` values; external results (dispatch success, comment success,
mutation success) are supplied as oracle inputs.  Early returns of the
Python `main` are modelled as a run outcome with `started = false`;
an uncaught Python exception is the `Outcome.uncaught` constructor and
`raise SystemExit` with an error message is `Outcome.fatalExit`.
-/

namespace Maverick

/-- Character-list test used to embed the Python substring operator:
`leadEq needle hay` holds when `needle` is an initial run of `hay`. -/
def leadEq : List Char → List Char → Bool
  | [], _ => true
  | _ :: _, [] => false
  | a :: as, b :: bs => a == b && leadEq as bs

/-- `subIn needle hay` embeds Python `needle in hay` on strings viewed
as character lists: `needle` occurs contiguously somewhere in `hay`. -/
def subIn (needle : List Char) : List Char → Bool
  | [] => leadEq needle []
  | c :: t => leadEq needle (c :: t) || subIn needle t

/-- Python `tok in key` substring containment on strings. -/
def strIn (needle hay : String) : Bool :=
  subIn needle.toList hay.toList

/-- Embeds `normalize` (intake_poller.py line 83): keep alphanumeric and
whitespace characters, lowercase the rest. -/
def normalize (text : String) : String :=
  String.mk ((text.toList.filter (fun ch => ch.isAlphanum || ch.isWhitespace)).map Char.toLower)

/-- Splits a character list at the characters satisfying `p`, dropping
empty pieces; `acc` holds the characters of the current piece in
reverse. -/
def splitDrop (p : Char → Bool) (acc : List Char) : List Char → List (List Char)
  | [] => if acc = [] then [] else [acc.reverse]
  | c :: cs =>
      if p c then
        (if acc = [] then splitDrop p [] cs else acc.reverse :: splitDrop p [] cs)
      else splitDrop p (c :: acc) cs

/-- Embeds Python `str.split()` with no argument: split on whitespace
runs and drop empty pieces. -/
def splitTok (s : String) : List String :=
  (splitDrop Char.isWhitespace [] s.toList).map String.mk

/-- Embeds Python `str.isdigit` for ASCII content: nonempty and all
characters are decimal digits. -/
def isDigits (s : String) : Bool :=
  s ≠ "" && s.toList.all Char.isDigit

/-- Embeds Python `int(...)` on a decimal digit string. -/
def strToNat (s : String) : Nat :=
  s.toList.foldl (fun acc c => acc * 10 + (c.toNat - 48)) 0

/-- Embeds `[p for p in parsed.path.split("/") if p]`
(intake_poller.py line 371): splitting on `/` and dropping the empty
pieces the comprehension filters out. -/
def pathParts (path : String) : List String :=
  (splitDrop (fun c => c == Char.ofNat 47) [] path.toList).map String.mk

/-- Embeds the loop at intake_poller.py lines 372-378: scan path parts;
at the first part equal to `pull` that has a successor, inspect that
successor and stop (the `break` runs whether or not it is numeric). -/
def findPrSegment : List String → Option String
  | a :: nxt :: rest =>
      if a == "pull" then (if isDigits nxt then some nxt else none)
      else findPrSegment (nxt :: rest)
  | _ => none

/-- A single-select option of the Status field: `{id, name}`. -/
structure StatusOption where
  id : String
  name : String
deriving DecidableEq, Repr

/-- Accumulator of the option resolution loop (intake_poller.py
lines 264-274): resolved ready id, in-flight id, and gate id list. -/
structure OptionRes where
  opt_ready : Option String
  opt_inflight : Option String
  opt_gate : List String
deriving DecidableEq, Repr

/-- Embeds the match test appearing three times in the loop body:
`key == want or all(tok in key for tok in want.split())`.  `want` is
already normalized at the call sites, as in the source. -/
def optionMatches (want key : String) : Bool :=
  key == want || (splitTok want).all (fun tok => strIn tok key)

/-- Gate status names (intake_poller.py lines 256-262). -/
def gateStatusNames : List String :=
  ["In Flight", "Debrief", "Remediation", "Verification", "Ready for Integration"]

/-- One iteration of the resolution loop body (intake_poller.py
lines 267-274): each of the three matches unconditionally overwrites
or appends, with no break. -/
def resolveStep (want_ready want_inflight : String) (want_gate : List String)
    (st : OptionRes) (option : StatusOption) : OptionRes :=
  let key := normalize option.name
  let st1 := if optionMatches want_ready key then { st with opt_ready := some option.id } else st
  let st2 := if optionMatches want_inflight key then { st1 with opt_inflight := some option.id } else st1
  if want_gate.any (fun g => optionMatches g key) then { st2 with opt_gate := st2.opt_gate ++ [option.id] } else st2

/-- Embeds the whole resolution phase (intake_poller.py lines 253-274):
normalize the wanted names, then fold the loop body over the options in
list order starting from an empty accumulator. -/
def resolveOptions (options : List StatusOption) (status_ready status_inflight : String) : OptionRes :=
  options.foldl
    (resolveStep (normalize status_ready) (normalize status_inflight) (gateStatusNames.map normalize))
    ⟨none, none, []⟩

/-- Modelled from the spec: the two-phase resolver of section 4.1 -
first pass exact equality of normalized names, second pass token-subset
with first match in list order winning.  Stated only to compare with
`resolveOptions`, the embedding of the code. -/
def resolveSpecOption (options : List StatusOption) (wantedName : String) : Option String :=
  let want := normalize wantedName
  match options.find? (fun o => normalize o.name == want) with
  | some o => some o.id
  | none =>
      (options.find? (fun o => (splitTok want).all (fun tok => strIn tok (normalize o.name)))).map (fun o => o.id)

/-- Identifier of the last option in list order whose normalized name
matches `want` under `optionMatches`, if any. -/
def lastMatchId (options : List StatusOption) (want : String) : Option String :=
  ((options.filter (fun o => optionMatches want (normalize o.name))).map (fun o => o.id)).getLast?

/-- Kind of content a board item references (`__typename`). -/
inductive ContentKind
  | issue
  | pullRequest
  | other
deriving DecidableEq, Repr

/-- Content attached to a board item: typename, number, and the
repository owner login and repository name. -/
structure Content where
  typename : ContentKind
  number : Nat
  owner_login : String
  repo_name : String
deriving DecidableEq, Repr

/-- A single-select field value carried by an item; `optionId` is
absent on field values of other shapes (the GraphQL fragment leaves
them as empty objects). -/
structure FieldValue where
  optionId : Option String
deriving DecidableEq, Repr

/-- A board item as consumed by `main`: item id, optional content, and
its field values. -/
structure Item where
  id : String
  content : Option Content
  fieldValues : List FieldValue
deriving DecidableEq, Repr

/-- Embeds the gate loop (intake_poller.py lines 282-288): some item
has a field value whose `optionId` is in `opt_gate`.  No repository or
content filter is applied.  Python `None in opt_gate` is false, which
`Option.any` reproduces. -/
def gateBlocked (items : List Item) (opt_gate : List String) : Bool :=
  items.any (fun item => item.fieldValues.any (fun fv =>
    fv.optionId.any (fun oid => opt_gate.contains oid)))

/-- Embeds the candidate loop (intake_poller.py lines 291-306): keep
Issue-kind items of the configured repository having some field value
with the ready option id; the inner `break` makes each item contribute
at most one `(item id, issue number)` pair, which `filterMap` captures. -/
def candidatesOf (items : List Item) (owner repo : String) (opt_ready : String) :
    List (String × Nat) :=
  items.filterMap (fun item =>
    match item.content with
    | none => none
    | some content =>
        if content.typename = ContentKind.issue ∧ content.owner_login = owner ∧
            content.repo_name = repo ∧
            item.fieldValues.any (fun fv => fv.optionId == some opt_ready)
        then some (item.id, content.number) else none)

/-- Embeds `min(candidates, key=lambda x: x[1])` guarded by the
emptiness check (intake_poller.py lines 308-313): Python `min` keeps
the earliest element unless a strictly smaller key appears. -/
def selectMin : List (String × Nat) → Option (String × Nat)
  | [] => none
  | c :: cs => some (cs.foldl (fun best x => if x.2 < best.2 then x else best) c)

/-- A project field node: single-select fields carry `some` options,
plain fields carry `none` (intake_poller.py lines 169-174). -/
structure ProjField where
  id : String
  name : String
  options : Option (List StatusOption)
deriving DecidableEq, Repr

/-- Embeds the `next(...)` lookup of the Status field
(intake_poller.py lines 224-226): first field named `Status` whose
options are present. -/
def statusFieldOf (fields : List ProjField) : Option ProjField :=
  fields.find? (fun n => n.name == "Status" && n.options.isSome)

/-- Embeds the PR field scan (intake_poller.py lines 228-234): first
field with a nonempty name normalizing to `pr`. -/
def prFieldOf (fields : List ProjField) : Option String :=
  (fields.find? (fun fld => fld.name ≠ "" && normalize fld.name == "pr")).map (fun fld => fld.id)

/-- Board snapshot together with the oracle result of the
`createProjectV2Field` mutation (the field id the API returns, or
`none` when the response carries no id). -/
structure Board where
  fields : List ProjField
  createFieldResult : Option String
deriving Repr

/-- The PR field id `main` ends up with: the pre-existing field if the
scan found one, otherwise whatever the creation mutation returned
(intake_poller.py lines 235-251). -/
def prResolved (board : Board) : Option String :=
  match prFieldOf board.fields with
  | some fid => some fid
  | none => board.createFieldResult

/-- A session URL returned by the dispatch step, with its parsed path
(the part `urlparse(...).path` yields). -/
structure SessionUrl where
  url : String
  path : String
deriving DecidableEq, Repr

/-- Oracle for the dispatch try block (intake_poller.py lines 319-362):
success with an optional session URL, `CalledProcessError`,
`FileNotFoundError`, or an exception of any other class, which the two
except clauses do not catch. -/
inductive DispatchResult
  | ok (session : Option SessionUrl)
  | procFail
  | toolMissing
  | raisesOther
deriving DecidableEq, Repr

/-- Remote calls issued by a run, in order.  `dispatchTask` is the
work-execution invocation; every other constructor is a board or issue
mutation. -/
inductive Call
  | createField
  | dispatchTask (issue : Nat)
  | postComment (issue : Nat)
  | setNumber (item : String) (value : Nat)
  | setText (item : String) (value : String)
  | setStatus (item : String) (optionId : String)
deriving DecidableEq, Repr

/-- True on the calls that mutate remote state (field creation, comment
post, auxiliary field value writes, status transition); the dispatch
invocation is not a board mutation. -/
def isMutationCall : Call → Bool
  | Call.dispatchTask _ => false
  | _ => true

/-- True exactly on status transition calls. -/
def isSetStatus : Call → Bool
  | Call.setStatus _ _ => true
  | _ => false

/-- Messages `main` prints, abstracted from their literal text. -/
inductive Msg
  | createFieldWarning
  | gateSkip
  | noItems
  | processing (n : Nat)
  | createdTask
  | agentFailed
  | ghMissing
  | noAction
  | prStoreWarning
deriving DecidableEq, Repr

/-- How the process ends: `fatalExit` is `raise SystemExit` with an
error diagnostic (nonzero exit), `uncaught` is an exception no handler
catches (nonzero exit), `normal started` is a plain return from `main`
(zero exit); early returns never set `started` and are modelled as
`normal false`. -/
inductive Outcome
  | fatalExit
  | uncaught
  | normal (started : Bool)
deriving DecidableEq, Repr

/-- Process exit status derived from the outcome. -/
def exitCode : Outcome → Nat
  | Outcome.normal _ => 0
  | _ => 1

/-- Configuration inputs of `main` (environment variables). -/
structure Config where
  owner : String
  repo : String
  status_ready : String
  status_inflight : String
deriving Repr

/-- Oracles for the externally determined results a run consumes. -/
structure Oracles where
  dispatch : DispatchResult
  commentOk : Bool
  numOk : Bool
  textOk : Bool
deriving Repr

/-- A run trace: outcome, the remote calls issued in order, and the
messages printed. -/
structure RunLog where
  outcome : Outcome
  calls : List Call
  msgs : List Msg
deriving DecidableEq, Repr

/-- Mutation calls the createField step issues (intake_poller.py
lines 235-251): one creation call exactly when no PR field exists. -/
def setupCalls (board : Board) : List Call :=
  match prFieldOf board.fields with
  | some _ => []
  | none => [Call.createField]

/-- Warning printed when creation of the PR field yields no id
(intake_poller.py lines 250-251). -/
def setupMsgs (board : Board) : List Msg :=
  match prFieldOf board.fields, board.createFieldResult with
  | none, none => [Msg.createFieldWarning]
  | _, _ => []

/-- Embeds step 2b (intake_poller.py lines 368-419) given the session
path: parse a PR number from the path; if found, attempt the numeric
mutation; only when it raises, attempt the text fallback; a failing
fallback is caught by the outer handler, which prints a warning. -/
def prWriteCalls (item_id : String) (path : String) (numOk textOk : Bool) :
    List Call × List Msg :=
  match findPrSegment (pathParts path) with
  | none => ([], [])
  | some v =>
      if numOk then ([Call.setNumber item_id (strToNat v)], [])
      else if textOk then
        ([Call.setNumber item_id (strToNat v), Call.setText item_id v], [])
      else
        ([Call.setNumber item_id (strToNat v), Call.setText item_id v], [Msg.prStoreWarning])

/-- Embeds `main` from the selection print to the end
(intake_poller.py lines 315-441): the dispatch try block, the kickoff
comment (no handler around it: a failure escapes `main`), step 2b, and
the status transition issued exactly when `started` is true. -/
def runFromSelection (item_id : String) (number : Nat) (pr_field : Option String)
    (opt_inflight : String) (oc : Oracles) : RunLog :=
  match oc.dispatch with
  | DispatchResult.raisesOther =>
      ⟨Outcome.uncaught, [Call.dispatchTask number], [Msg.processing number]⟩
  | DispatchResult.toolMissing =>
      ⟨Outcome.normal false, [], [Msg.processing number, Msg.ghMissing, Msg.noAction]⟩
  | DispatchResult.procFail =>
      ⟨Outcome.normal false, [Call.dispatchTask number],
        [Msg.processing number, Msg.agentFailed, Msg.noAction]⟩
  | DispatchResult.ok none =>
      ⟨Outcome.normal true, [Call.dispatchTask number, Call.setStatus item_id opt_inflight],
        [Msg.processing number]⟩
  | DispatchResult.ok (some s) =>
      if oc.commentOk then
        match pr_field with
        | none =>
            ⟨Outcome.normal true,
              [Call.dispatchTask number, Call.postComment number,
                Call.setStatus item_id opt_inflight],
              [Msg.processing number, Msg.createdTask]⟩
        | some _ =>
            ⟨Outcome.normal true,
              [Call.dispatchTask number, Call.postComment number] ++
                (prWriteCalls item_id s.path oc.numOk oc.textOk).1 ++
                [Call.setStatus item_id opt_inflight],
              [Msg.processing number, Msg.createdTask] ++
                (prWriteCalls item_id s.path oc.numOk oc.textOk).2⟩
      else
        ⟨Outcome.uncaught, [Call.dispatchTask number, Call.postComment number],
          [Msg.processing number, Msg.createdTask]⟩

/-- Embeds `main` from the gate check onward (intake_poller.py
lines 281-441): gate, candidate selection, then the dispatch and
mutation phase. -/
def runAfterResolve (owner repo : String) (opt_ready opt_inflight : String)
    (opt_gate : List String) (pr_field : Option String) (items : List Item)
    (oc : Oracles) : RunLog :=
  if gateBlocked items opt_gate then ⟨Outcome.normal false, [], [Msg.gateSkip]⟩
  else
    match selectMin (candidatesOf items owner repo opt_ready) with
    | none => ⟨Outcome.normal false, [], [Msg.noItems]⟩
    | some (item_id, number) => runFromSelection item_id number pr_field opt_inflight oc

/-- Embeds `main` from the Status field lookup onward
(intake_poller.py lines 222-441): Status field lookup (a missing field
makes the `next(...)` call raise StopIteration, an uncaught exception),
PR field scan and lazy creation, option resolution with its mandatory
check, then the gate, selection, dispatch and mutation phases.  The
trace prepends the calls and messages of the createField step. -/
def runMain (cfg : Config) (board : Board) (items : List Item) (oc : Oracles) : RunLog :=
  match statusFieldOf board.fields with
  | none => ⟨Outcome.uncaught, [], []⟩
  | some status_field =>
      let res := resolveOptions (status_field.options.getD []) cfg.status_ready cfg.status_inflight
      match res.opt_ready, res.opt_inflight with
      | some opt_ready, some opt_inflight =>
          let rest := runAfterResolve cfg.owner cfg.repo opt_ready opt_inflight
            res.opt_gate (prResolved board) items oc
          ⟨rest.outcome, setupCalls board ++ rest.calls, setupMsgs board ++ rest.msgs⟩
      | _, _ => ⟨Outcome.fatalExit, setupCalls board, setupMsgs board⟩

/-- One parsed page response of the items query: the item nodes, the
`hasNextPage` flag and the optional `endCursor`
(intake_poller.py lines 136-144). -/
structure Page where
  nodes : List Item
  hasNextPage : Bool
  endCursor : Option String
deriving Repr

/-- The loop continuation test of `fetch_all_items`
(intake_poller.py lines 140-144): continue only when the page claims a
next page and yields a nonempty cursor (`not after` is true in Python
for both a missing cursor and an empty string). -/
def contPage (p : Page) : Bool :=
  p.hasNextPage && (match p.endCursor with | some c => c ≠ "" | none => false)

/-- Fuel-indexed embedding of the `while True` loop of
`fetch_all_items` over a stream of page responses indexed by fetch
count: accumulate the nodes of page `i` and recurse on `i + 1` exactly
when `contPage` holds. -/
def fetch_loop (pages : Nat → Page) : Nat → Nat → List Item
  | 0, _ => []
  | fuel + 1, i => (pages i).nodes ++ (if contPage (pages i) then fetch_loop pages fuel (i + 1) else [])

/-- Embeds `fetch_all_items` (intake_poller.py lines 88-145) against a
stream of page responses, starting at the first page. -/
def fetch_all_items (pages : Nat → Page) (fuel : Nat) : List Item :=
  fetch_loop pages fuel 0

/-- Shape of the items query request: page size and `after` cursor
(intake_poller.py line 100). -/
structure PageRequest where
  first : Nat
  after : Option String
deriving DecidableEq, Repr

/-- The request issued for fetch number `i`: the first request carries
no cursor; request `i + 1` carries the end cursor of page `i`
(intake_poller.py lines 94, 132, 142). -/
def requestAt (pages : Nat → Page) : Nat → PageRequest
  | 0 => ⟨100, none⟩
  | i + 1 => ⟨100, (pages i).endCursor⟩

/-- Concatenation, in fetch order, of the nodes of pages `0` to `k`. -/
def joinNodes (pages : Nat → Page) (k : Nat) : List Item :=
  ((List.range (k + 1)).map (fun i => (pages i).nodes)).flatten

/-- True exactly on the per-candidate progress message. -/
def isProcessing : Msg → Bool
  | Msg.processing _ => true
  | _ => false

/-- True exactly on comment posting calls. -/
def isPostComment : Call → Bool
  | Call.postComment _ => true
  | _ => false

/-- Configuration used by the concrete runs below. -/
def cfgEx : Config := ⟨"own", "rep", "Ready for Takeoff", "In Flight"⟩

/-- Status options used by the concrete runs below. -/
def statusOptionsEx : List StatusOption :=
  [⟨"o1", "Ready for Takeoff"⟩, ⟨"o2", "In Flight"⟩]

/-- Board whose field list has no PR field; the creation mutation
returns field id `pf`. -/
def boardNoPr : Board := ⟨[⟨"sf", "Status", some statusOptionsEx⟩], some "pf"⟩

/-- Board that already carries a PR field. -/
def boardWithPr : Board :=
  ⟨[⟨"sf", "Status", some statusOptionsEx⟩, ⟨"pf", "PR", none⟩], none⟩

/-- An Issue item of the configured repository in Ready status. -/
def itemReady (i : String) (n : Nat) : Item :=
  ⟨i, some ⟨ContentKind.issue, n, "own", "rep"⟩, [⟨some "o1"⟩]⟩

/-- A single ready issue numbered 7. -/
def itemsOne : List Item := [itemReady "i1" 7]

/-- Ready issues numbered 5, 3 and 9, in that board order. -/
def items539 : List Item :=
  [itemReady "i5" 5, itemReady "i3" 3, itemReady "i9" 9]

/-- Items used for the gate examples: one item of a foreign repository
holding the in-flight option. -/
def itemsGate : List Item :=
  [⟨"g1", some ⟨ContentKind.issue, 4, "other", "elsewhere"⟩, [⟨some "o2"⟩]⟩, itemReady "i1" 7]

/-- Three synthetic pages: each returns one node, the first two claim a
next page with a cursor and the last does not. -/
def pagesEx : Nat → Page
  | 0 => ⟨[itemReady "p0" 10], true, some "c1"⟩
  | 1 => ⟨[itemReady "p1" 11], true, some "c2"⟩
  | _ => ⟨[itemReady "p2" 12], false, none⟩

/-- Oracles of the fallback run: dispatch succeeds with a pull URL,
the comment posts, and both value mutations fail. -/
def ocC9w : Oracles :=
  ⟨DispatchResult.ok (some ⟨"https://x/own/rep/pull/42/x", "/own/rep/pull/42/x"⟩), true,
    false, false⟩

/-- An item carrying the ready option twice among its field values,
next to a second ready item. -/
def itemsDouble : List Item :=
  [⟨"i1", some ⟨ContentKind.issue, 7, "own", "rep"⟩, [⟨some "o1"⟩, ⟨some "o1"⟩]⟩,
    itemReady "i2" 8]

lemma selectMin_foldl_mem (c : String × Nat) (cs : List (String × Nat)) :
    cs.foldl (fun best x => if x.2 < best.2 then x else best) c ∈ c :: cs := by
  induction cs generalizing c with
  | nil => simp
  | cons x cs ih =>
      rw [List.foldl_cons]
      by_cases hx : x.2 < c.2
      · rw [if_pos hx]
        rcases List.mem_cons.mp (ih x) with h | h
        · simp [h]
        · simp [h]
      · rw [if_neg hx]
        rcases List.mem_cons.mp (ih c) with h | h
        · simp [h]
        · simp [h]

lemma selectMin_foldl_le (c : String × Nat) (cs : List (String × Nat)) :
    (cs.foldl (fun best x => if x.2 < best.2 then x else best) c).2 ≤ c.2 ∧
      ∀ q ∈ cs, (cs.foldl (fun best x => if x.2 < best.2 then x else best) c).2 ≤ q.2 := by
  induction cs generalizing c with
  | nil => simp
  | cons x cs ih =>
      rw [List.foldl_cons]
      by_cases hx : x.2 < c.2
      · rw [if_pos hx]
        obtain ⟨h1, h2⟩ := ih x
        refine ⟨le_trans h1 (le_of_lt hx), ?_⟩
        intro q hq
        rcases List.mem_cons.mp hq with rfl | hq
        · exact h1
        · exact h2 q hq
      · rw [if_neg hx]
        obtain ⟨h1, h2⟩ := ih c
        refine ⟨h1, ?_⟩
        intro q hq
        rcases List.mem_cons.mp hq with rfl | hq
        · exact le_trans h1 (le_of_not_lt hx)
        · exact h2 q hq

lemma selectMin_mem {l : List (String × Nat)} {p : String × Nat}
    (h : selectMin l = some p) : p ∈ l := by
  cases l with
  | nil => simp [selectMin] at h
  | cons c cs =>
      simp only [selectMin, Option.some.injEq] at h
      subst h
      exact selectMin_foldl_mem c cs

lemma selectMin_le {l : List (String × Nat)} {p : String × Nat}
    (h : selectMin l = some p) : ∀ q ∈ l, p.2 ≤ q.2 := by
  cases l with
  | nil => simp [selectMin] at h
  | cons c cs =>
      simp only [selectMin, Option.some.injEq] at h
      subst h
      intro q hq
      rcases List.mem_cons.mp hq with rfl | hq
      · exact (selectMin_foldl_le q cs).1
      · exact (selectMin_foldl_le c cs).2 q hq

lemma selectMin_eq_none {l : List (String × Nat)} :
    selectMin l = none ↔ l = [] := by
  cases l <;> simp [selectMin]

lemma candidates_fst_sublist (items : List Item) (owner repo opt_ready : String) :
    ((candidatesOf items owner repo opt_ready).map Prod.fst).Sublist (items.map Item.id) := by
  induction items with
  | nil => simp [candidatesOf]
  | cons it its ih =>
      simp only [candidatesOf] at ih ⊢
      cases hc : it.content with
      | none =>
          rw [List.filterMap_cons, hc]
          exact List.Sublist.cons _ ih
      | some content =>
          by_cases hcond : content.typename = ContentKind.issue ∧ content.owner_login = owner ∧
              content.repo_name = repo ∧
              (it.fieldValues.any fun fv => fv.optionId == some opt_ready) = true
          · rw [List.map_cons, List.filterMap_cons, hc]
            simp only [if_pos hcond]
            exact List.Sublist.cons₂ _ ih
          · rw [List.map_cons, List.filterMap_cons, hc]
            simp only [if_neg hcond]
            exact List.Sublist.cons _ ih

lemma resolveStep_ready (wr wi : String) (wg : List String) (st : OptionRes) (o : StatusOption) :
    (resolveStep wr wi wg st o).opt_ready =
      if optionMatches wr (normalize o.name) then some o.id else st.opt_ready := by
  simp only [resolveStep]
  split <;> split <;> split <;> rfl

lemma resolveStep_inflight (wr wi : String) (wg : List String) (st : OptionRes) (o : StatusOption) :
    (resolveStep wr wi wg st o).opt_inflight =
      if optionMatches wi (normalize o.name) then some o.id else st.opt_inflight := by
  simp only [resolveStep]
  split <;> split <;> split <;> rfl

lemma foldl_overwrite_eq_getLast (l : List String) (init : Option String) :
    l.foldl (fun _ x => some x) init =
      match l.getLast? with
      | some x => some x
      | none => init := by
  induction l generalizing init with
  | nil => rfl
  | cons a l ih =>
      rw [List.foldl_cons, ih]
      cases l with
      | nil => rfl
      | cons b l' =>
          rw [List.getLast?_cons_cons]
          rcases h : (b :: l').getLast? with _ | x
          · exact absurd (List.getLast?_eq_none_iff.mp h) (by simp)
          · rfl

lemma foldl_resolve_ready (wr wi : String) (wg : List String) (opts : List StatusOption) :
    ∀ st : OptionRes,
      (opts.foldl (resolveStep wr wi wg) st).opt_ready =
        ((opts.filter (fun o => optionMatches wr (normalize o.name))).map
          (fun o => o.id)).foldl (fun _ x => some x) st.opt_ready := by
  induction opts with
  | nil => intro st; rfl
  | cons o opts ih =>
      intro st
      rw [List.foldl_cons, ih, List.filter_cons]
      by_cases h : optionMatches wr (normalize o.name)
      · simp [h, resolveStep_ready]
      · simp [h, resolveStep_ready]

lemma foldl_resolve_inflight (wr wi : String) (wg : List String) (opts : List StatusOption) :
    ∀ st : OptionRes,
      (opts.foldl (resolveStep wr wi wg) st).opt_inflight =
        ((opts.filter (fun o => optionMatches wi (normalize o.name))).map
          (fun o => o.id)).foldl (fun _ x => some x) st.opt_inflight := by
  induction opts with
  | nil => intro st; rfl
  | cons o opts ih =>
      intro st
      rw [List.foldl_cons, ih, List.filter_cons]
      by_cases h : optionMatches wi (normalize o.name)
      · simp [h, resolveStep_inflight]
      · simp [h, resolveStep_inflight]

lemma fetch_loop_eq (pages : Nat → Page) :
    ∀ (k s fuel : Nat), (∀ i, i < k → contPage (pages (s + i)) = true) →
      contPage (pages (s + k)) = false → k + 1 ≤ fuel →
      fetch_loop pages fuel s =
        ((List.range (k + 1)).map (fun i => (pages (s + i)).nodes)).flatten := by
  intro k
  induction k with
  | zero =>
      intro s fuel _ hstop hfuel
      match fuel, hfuel with
      | fuel + 1, _ =>
          have hs : contPage (pages s) = false := by simpa using hstop
          simp [fetch_loop, hs, List.range_succ]
  | succ k ih =>
      intro s fuel hcont hstop hfuel
      match fuel, hfuel with
      | fuel + 1, hf =>
          have h0 : contPage (pages s) = true := by simpa using hcont 0 (Nat.succ_pos k)
          have hstep : fetch_loop pages (fuel + 1) s =
              (pages s).nodes ++ fetch_loop pages fuel (s + 1) := by
            simp [fetch_loop, h0]
          have harg : ∀ i, s + (i + 1) = (s + 1) + i := by omega
          rw [hstep, ih (s + 1) fuel
            (fun i hi => by rw [← harg]; exact hcont (i + 1) (Nat.succ_lt_succ hi))
            (by rw [← harg]; exact hstop)
            (Nat.succ_le_succ_iff.mp hf)]
          conv_rhs => rw [List.range_succ_eq_map, List.map_cons, List.flatten_cons, List.map_map]
          congr 1
          congr 1
          apply List.map_congr_left
          intro i _
          simp only [Function.comp_apply]
          show (pages (s + 1 + i)).nodes = (pages (s + (i + 1))).nodes
          rw [harg i]

lemma setupCalls_cases (board : Board) :
    setupCalls board = [] ∨ setupCalls board = [Call.createField] := by
  unfold setupCalls
  cases prFieldOf board.fields <;> simp

lemma runFromSelection_mutfree (item_id : String) (number : Nat) (pr_field : Option String)
    (opt_inflight : String) (oc : Oracles)
    (h : (runFromSelection item_id number pr_field opt_inflight oc).outcome = Outcome.normal false) :
    (runFromSelection item_id number pr_field opt_inflight oc).calls.filter
      (fun c => isMutationCall c) = [] := by
  unfold runFromSelection at h ⊢
  cases hd : oc.dispatch with
  | raisesOther => rw [hd] at h; simp at h
  | toolMissing => rfl
  | procFail => rfl
  | ok s =>
      rw [hd] at h
      cases s with
      | none => simp at h
      | some s1 =>
          by_cases hc : oc.commentOk
          · cases pr_field with
            | none => simp [hc] at h
            | some pf => simp [hc] at h
          · simp [hc] at h

lemma runAfterResolve_mutfree (owner repo opt_ready opt_inflight : String)
    (opt_gate : List String) (pr_field : Option String) (items : List Item) (oc : Oracles)
    (h : (runAfterResolve owner repo opt_ready opt_inflight opt_gate pr_field items oc).outcome =
      Outcome.normal false) :
    (runAfterResolve owner repo opt_ready opt_inflight opt_gate pr_field items oc).calls.filter
      (fun c => isMutationCall c) = [] := by
  unfold runAfterResolve at h ⊢
  revert h
  split
  · intro _; rfl
  · split
    · intro _; rfl
    · intro h; exact runFromSelection_mutfree _ _ _ _ _ h

/-- C1, amended: a run that ends with `started = false` issues no
comment post, no auxiliary field value write and no status transition;
the only board mutation it may have issued is the creation of the
missing PR field, which the code performs unconditionally before the
outcome is known. -/
theorem C1_started_false_only_createField (cfg : Config) (board : Board) (items : List Item)
    (oc : Oracles) (h : (runMain cfg board items oc).outcome = Outcome.normal false) :
    (((runMain cfg board items oc).calls.filter (fun c => isMutationCall c)).all
      (fun c => c == Call.createField)) = true := by
  unfold runMain at h ⊢
  revert h
  cases hsf : statusFieldOf board.fields with
  | none => intro h; simp at h
  | some sf =>
      simp only []
      split
      · intro h
        rw [List.filter_append, List.all_append, Bool.and_eq_true]
        constructor
        · rcases setupCalls_cases board with h0 | h0 <;> rw [h0] <;> rfl
        · rw [runAfterResolve_mutfree _ _ _ _ _ _ _ _ h]
          rfl
      · intro h
        simp at h

/-- C1 counterexample: a concrete run on a board lacking the PR field
ends with `started = false` after a dispatch failure, yet its trace
contains the field creation mutation, so such a run does not issue zero
remote mutations. -/
theorem C1_cex_started_false_with_mutation :
    (runMain cfgEx boardNoPr itemsOne ⟨DispatchResult.procFail, true, true, true⟩).outcome =
      Outcome.normal false ∧
    Call.createField ∈
      (runMain cfgEx boardNoPr itemsOne ⟨DispatchResult.procFail, true, true, true⟩).calls := by
  decide

/-- C1 witness: the amended statement applied to the concrete
started-false run. -/
theorem C1_started_false_only_createField_witness :
    (((runMain cfgEx boardNoPr itemsOne ⟨DispatchResult.procFail, true, true, true⟩).calls.filter
      (fun c => isMutationCall c)).all (fun c => c == Call.createField)) = true :=
  C1_started_false_only_createField cfgEx boardNoPr itemsOne
    ⟨DispatchResult.procFail, true, true, true⟩ (by decide)

lemma runFromSelection_comment_fail (item_id : String) (number : Nat)
    (pr_field : Option String) (opt_inflight : String) (oc : Oracles) (s : SessionUrl)
    (hd : oc.dispatch = DispatchResult.ok (some s)) (hc : oc.commentOk = false) :
    runFromSelection item_id number pr_field opt_inflight oc =
      ⟨Outcome.uncaught, [Call.dispatchTask number, Call.postComment number],
        [Msg.processing number, Msg.createdTask]⟩ := by
  unfold runFromSelection
  rw [hd, hc]
  rfl

/-- C2, amended: the kickoff comment call has no exception handler, so
when it fails the exception escapes `main`: the run aborts with a
nonzero exit, the authoritative status mutation is never attempted, and
the reported outcome does change.  In every run whose comment step
fails, no status mutation appears in the trace, the run does not end as
a started success, and if the comment was attempted the run dies from
the uncaught error. -/
theorem C2_comment_failure_prevents_status (cfg : Config) (board : Board) (items : List Item)
    (oc : Oracles) (s : SessionUrl) (hd : oc.dispatch = DispatchResult.ok (some s))
    (hc : oc.commentOk = false) :
    (runMain cfg board items oc).calls.filter (fun c => isSetStatus c) = [] ∧
    (runMain cfg board items oc).outcome ≠ Outcome.normal true ∧
    ((runMain cfg board items oc).calls.any (fun c => isPostComment c) = true →
      (runMain cfg board items oc).outcome = Outcome.uncaught) := by
  unfold runMain
  cases hsf : statusFieldOf board.fields with
  | none => exact ⟨rfl, by simp, by simp [isPostComment]⟩
  | some sf =>
      simp only []
      split
      · rw [runAfterResolve] at *
        revert hd hc
        split
        · intro hd hc
          rcases setupCalls_cases board with h0 | h0 <;> rw [h0] <;> exact ⟨rfl, by simp, by simp [isPostComment]⟩
        · split
          · intro hd hc
            rcases setupCalls_cases board with h0 | h0 <;> rw [h0] <;> exact ⟨rfl, by simp, by simp [isPostComment]⟩
          · intro hd hc
            rw [runFromSelection_comment_fail _ _ _ _ _ s hd hc]
            rcases setupCalls_cases board with h0 | h0 <;> rw [h0] <;>
              exact ⟨rfl, by simp, fun _ => rfl⟩
      · rcases setupCalls_cases board with h0 | h0 <;> rw [h0] <;> exact ⟨rfl, by simp, by simp [isPostComment]⟩

/-- C2 counterexample: a concrete run in which dispatch succeeds with a
session URL and the comment call fails: the run ends in an uncaught
error and its trace holds no status mutation, so the notification
failure did prevent the authoritative status mutation and did change
the reported outcome. -/
theorem C2_cex_comment_failure :
    (runMain cfgEx boardNoPr itemsOne
      ⟨DispatchResult.ok (some ⟨"https://x/s", "/s"⟩), false, true, true⟩).calls =
      [Call.createField, Call.dispatchTask 7, Call.postComment 7] ∧
    (runMain cfgEx boardNoPr itemsOne
      ⟨DispatchResult.ok (some ⟨"https://x/s", "/s"⟩), false, true, true⟩).outcome =
      Outcome.uncaught := by
  decide

/-- C2 witness: the amended statement applied to the concrete failing
comment run. -/
theorem C2_comment_failure_prevents_status_witness :
    (runMain cfgEx boardNoPr itemsOne
      ⟨DispatchResult.ok (some ⟨"https://x/s", "/s"⟩), false, true, true⟩).calls.filter
        (fun c => isSetStatus c) = [] ∧
    (runMain cfgEx boardNoPr itemsOne
      ⟨DispatchResult.ok (some ⟨"https://x/s", "/s"⟩), false, true, true⟩).outcome ≠
      Outcome.normal true ∧
    ((runMain cfgEx boardNoPr itemsOne
      ⟨DispatchResult.ok (some ⟨"https://x/s", "/s"⟩), false, true, true⟩).calls.any
        (fun c => isPostComment c) = true →
      (runMain cfgEx boardNoPr itemsOne
        ⟨DispatchResult.ok (some ⟨"https://x/s", "/s"⟩), false, true, true⟩).outcome =
        Outcome.uncaught) :=
  C2_comment_failure_prevents_status cfgEx boardNoPr itemsOne
    ⟨DispatchResult.ok (some ⟨"https://x/s", "/s"⟩), false, true, true⟩
    ⟨"https://x/s", "/s"⟩ rfl rfl

/-- C4, amended: when a mandatory status option (ready or in-flight)
does not resolve, the run raises SystemExit with a diagnostic and exits
nonzero before any comment post, field value write or status mutation;
however, when the auxiliary PR field was absent its creation mutation
has already been issued before the abort, so the abort is not before
every mutation. -/
theorem C4_unresolved_mandatory_aborts (cfg : Config) (board : Board) (items : List Item)
    (oc : Oracles) (sf : ProjField) (hsf : statusFieldOf board.fields = some sf)
    (h : (resolveOptions (sf.options.getD []) cfg.status_ready cfg.status_inflight).opt_ready =
        none ∨
      (resolveOptions (sf.options.getD []) cfg.status_ready cfg.status_inflight).opt_inflight =
        none) :
    (runMain cfg board items oc).outcome = Outcome.fatalExit ∧
    exitCode (runMain cfg board items oc).outcome = 1 ∧
    ((runMain cfg board items oc).calls.all (fun c => c == Call.createField)) = true := by
  unfold runMain
  rw [hsf]
  simp only []
  split
  · next r f hr hf =>
      rw [hr] at h
      rw [hf] at h
      simp at h
  · refine ⟨rfl, rfl, ?_⟩
    rcases setupCalls_cases board with h0 | h0 <;> rw [h0] <;> rfl

/-- C4 counterexample: a concrete board without a PR field and with a
Status option list on which the ready name cannot resolve: the run
aborts with SystemExit, but its trace already contains the field
creation mutation, so the abort is not before any mutation. -/
theorem C4_cex_mutation_before_abort :
    (runMain cfgEx ⟨[⟨"sf", "Status", some [⟨"oX", "Blocked"⟩]⟩], some "pf"⟩ itemsOne
      ⟨DispatchResult.procFail, true, true, true⟩).outcome = Outcome.fatalExit ∧
    (runMain cfgEx ⟨[⟨"sf", "Status", some [⟨"oX", "Blocked"⟩]⟩], some "pf"⟩ itemsOne
      ⟨DispatchResult.procFail, true, true, true⟩).calls = [Call.createField] := by
  decide

/-- C4 witness: the amended statement applied to the concrete
unresolvable board. -/
theorem C4_unresolved_mandatory_aborts_witness :
    (runMain cfgEx ⟨[⟨"sf", "Status", some [⟨"oX", "Blocked"⟩]⟩], some "pf"⟩ itemsOne
      ⟨DispatchResult.procFail, true, true, true⟩).outcome = Outcome.fatalExit ∧
    exitCode (runMain cfgEx ⟨[⟨"sf", "Status", some [⟨"oX", "Blocked"⟩]⟩], some "pf"⟩ itemsOne
      ⟨DispatchResult.procFail, true, true, true⟩).outcome = 1 ∧
    ((runMain cfgEx ⟨[⟨"sf", "Status", some [⟨"oX", "Blocked"⟩]⟩], some "pf"⟩ itemsOne
      ⟨DispatchResult.procFail, true, true, true⟩).calls.all
        (fun c => c == Call.createField)) = true :=
  C4_unresolved_mandatory_aborts cfgEx
    ⟨[⟨"sf", "Status", some [⟨"oX", "Blocked"⟩]⟩], some "pf"⟩ itemsOne
    ⟨DispatchResult.procFail, true, true, true⟩ ⟨"sf", "Status", some [⟨"oX", "Blocked"⟩]⟩
    (by decide) (Or.inl (by decide))

lemma setupMsgs_cases (board : Board) :
    setupMsgs board = [] ∨ setupMsgs board = [Msg.createFieldWarning] := by
  unfold setupMsgs
  cases prFieldOf board.fields <;> cases board.createFieldResult <;> simp

lemma optionAny_contains_iff (o : Option String) (g : List String) :
    (o.any fun oid => g.contains oid) = true ↔ ∃ oid, o = some oid ∧ oid ∈ g := by
  cases o <;> simp [Option.any]

/-- C5: the gate evaluates blocked exactly when some item carries a
field value whose option id lies in the gate set, items of any
repository included; the empty item list is never blocked; and a
blocked run ends immediately with only the gate diagnostic: no
candidate is selected or processed, no dispatch happens, and no board
mutation beyond the earlier PR field creation is issued. -/
theorem C5_gate_semantics :
    (∀ (items : List Item) (g : List String),
      gateBlocked items g = true ↔
        ∃ item ∈ items, ∃ fv ∈ item.fieldValues, ∃ oid, fv.optionId = some oid ∧ oid ∈ g) ∧
    (∀ g : List String, gateBlocked [] g = false) ∧
    (∀ (cfg : Config) (board : Board) (items : List Item) (oc : Oracles) (sf : ProjField)
        (r f : String),
      statusFieldOf board.fields = some sf →
      (resolveOptions (sf.options.getD []) cfg.status_ready cfg.status_inflight).opt_ready =
        some r →
      (resolveOptions (sf.options.getD []) cfg.status_ready cfg.status_inflight).opt_inflight =
        some f →
      gateBlocked items
        (resolveOptions (sf.options.getD []) cfg.status_ready cfg.status_inflight).opt_gate =
        true →
      (runMain cfg board items oc).outcome = Outcome.normal false ∧
      ((runMain cfg board items oc).calls.all (fun c => c == Call.createField)) = true ∧
      Msg.gateSkip ∈ (runMain cfg board items oc).msgs ∧
      ((runMain cfg board items oc).msgs.all (fun m => !isProcessing m)) = true) := by
  refine ⟨?_, ?_, ?_⟩
  · intro items g
    unfold gateBlocked
    simp only [List.any_eq_true, optionAny_contains_iff]
  · intro g
    rfl
  · intro cfg board items oc sf r f hsf hr hf hg
    unfold runMain
    rw [hsf]
    simp only []
    split
    · rw [runAfterResolve, if_pos hg]
      refine ⟨rfl, ?_, ?_, ?_⟩
      · rcases setupCalls_cases board with h0 | h0 <;> rw [h0] <;> rfl
      · rcases setupMsgs_cases board with h0 | h0 <;> rw [h0] <;> simp
      · rcases setupMsgs_cases board with h0 | h0 <;> rw [h0] <;> rfl
    · rename_i h2
      exact (h2 r f hr hf).elim

/-- C5 witness: the gate run statement applied to a concrete board on
which an item of a foreign repository holds the in-flight option. -/
theorem C5_gate_semantics_witness :
    (runMain cfgEx boardNoPr itemsGate ⟨DispatchResult.procFail, true, true, true⟩).outcome =
      Outcome.normal false ∧
    ((runMain cfgEx boardNoPr itemsGate ⟨DispatchResult.procFail, true, true, true⟩).calls.all
      (fun c => c == Call.createField)) = true ∧
    Msg.gateSkip ∈
      (runMain cfgEx boardNoPr itemsGate ⟨DispatchResult.procFail, true, true, true⟩).msgs ∧
    ((runMain cfgEx boardNoPr itemsGate ⟨DispatchResult.procFail, true, true, true⟩).msgs.all
      (fun m => !isProcessing m)) = true :=
  C5_gate_semantics.2.2 cfgEx boardNoPr itemsGate ⟨DispatchResult.procFail, true, true, true⟩
    ⟨"sf", "Status", some statusOptionsEx⟩ "o1" "o2" (by decide) (by decide) (by decide)
    (by decide)

/-- C6: candidate selection keeps exactly the Issue items of the
configured repository carrying the ready option in some field value;
the selected pair has the minimum issue number among the candidates;
and the choice is invariant under reordering of the board items when
the candidate issue numbers are distinct. -/
theorem C6_candidate_selection :
    (∀ (items : List Item) (owner repo ready : String) (i : String) (n : Nat),
      (i, n) ∈ candidatesOf items owner repo ready ↔
        ∃ item ∈ items, item.id = i ∧ ∃ c, item.content = some c ∧
          c.typename = ContentKind.issue ∧ c.owner_login = owner ∧ c.repo_name = repo ∧
          c.number = n ∧ ∃ fv ∈ item.fieldValues, fv.optionId = some ready) ∧
    (∀ (items : List Item) (owner repo ready : String) (p : String × Nat),
      selectMin (candidatesOf items owner repo ready) = some p →
        p ∈ candidatesOf items owner repo ready ∧
        ∀ q ∈ candidatesOf items owner repo ready, p.2 ≤ q.2) ∧
    (∀ (c1 c2 : List (String × Nat)), c1.Perm c2 → (c1.map Prod.snd).Nodup →
      selectMin c1 = selectMin c2) ∧
    (∀ (items1 items2 : List Item) (owner repo ready : String), items1.Perm items2 →
      (candidatesOf items1 owner repo ready).Perm (candidatesOf items2 owner repo ready)) := by
  refine ⟨?_, ?_, ?_, ?_⟩
  · intro items owner repo ready i n
    unfold candidatesOf
    rw [List.mem_filterMap]
    constructor
    · rintro ⟨item, hitem, hmatch⟩
      cases hc : item.content with
      | none =>
          simp only [hc] at hmatch
          cases hmatch
      | some c =>
          simp only [hc] at hmatch
          by_cases hcond : c.typename = ContentKind.issue ∧ c.owner_login = owner ∧
              c.repo_name = repo ∧
              (item.fieldValues.any fun fv => fv.optionId == some ready) = true
          · rw [if_pos hcond] at hmatch
            obtain ⟨rfl, rfl⟩ : item.id = i ∧ c.number = n := by
              simpa using hmatch
            obtain ⟨h1, h2, h3, h4⟩ := hcond
            rw [List.any_eq_true] at h4
            obtain ⟨fv, hfv, hb⟩ := h4
            exact ⟨item, hitem, rfl, c, hc, h1, h2, h3, rfl, fv, hfv, by simpa using hb⟩
          · rw [if_neg hcond] at hmatch
            simp at hmatch
    · rintro ⟨item, hitem, rfl, c, hc, h1, h2, h3, rfl, fv, hfv, hoid⟩
      refine ⟨item, hitem, ?_⟩
      have h4 : (item.fieldValues.any fun fv => fv.optionId == some ready) = true := by
        rw [List.any_eq_true]
        exact ⟨fv, hfv, by simp [hoid]⟩
      simp only [hc]
      rw [if_pos ⟨h1, h2, h3, h4⟩]
  · intro items owner repo ready p hp
    exact ⟨selectMin_mem hp, selectMin_le hp⟩
  · intro c1 c2 hperm hnd
    cases h1 : selectMin c1 with
    | none =>
        rw [selectMin_eq_none] at h1
        subst h1
        rw [selectMin_eq_none.mpr hperm.symm.eq_nil]
    | some p1 =>
        cases h2 : selectMin c2 with
        | none =>
            rw [selectMin_eq_none] at h2
            subst h2
            rw [selectMin_eq_none.mpr hperm.eq_nil] at h1
            simp at h1
        | some p2 =>
            have m1 := selectMin_mem h1
            have m2 := selectMin_mem h2
            have le1 := selectMin_le h1 p2 (hperm.mem_iff.mpr m2)
            have le2 := selectMin_le h2 p1 (hperm.mem_iff.mp m1)
            have hsnd : p1.2 = p2.2 := le_antisymm le1 le2
            have := List.inj_on_of_nodup_map hnd m1 (hperm.mem_iff.mpr m2) hsnd
            rw [this]
  · intro items1 items2 owner repo ready hperm
    exact hperm.filterMap _

/-- C6 witness: ready issues numbered 5, 3 and 9 yield candidate 3; the
minimum-number statement applied at the concrete board. -/
theorem C6_candidate_selection_witness :
    ("i3", 3) ∈ candidatesOf items539 "own" "rep" "o1" ∧
    ((candidatesOf items539 "own" "rep" "o1").all (fun q => decide (3 ≤ q.2))) = true := by
  have h := C6_candidate_selection.2.1 items539 "own" "rep" "o1" ("i3", 3) (by decide)
  refine ⟨h.1, ?_⟩
  rw [List.all_eq_true]
  intro q hq
  simpa using h.2 q hq

/-- C7: when dispatch fails with a missing tool or a nonzero exit, the
failure is contained: the run ends normally with exit code zero,
`started` stays false, the status transition is skipped, the no-action
message is printed, and no board mutation beyond the earlier PR field
creation is issued. -/
theorem C7_dispatch_failure_contained (cfg : Config) (board : Board) (items : List Item)
    (oc : Oracles) (sf : ProjField) (r f item_id : String) (number : Nat)
    (hsf : statusFieldOf board.fields = some sf)
    (hr : (resolveOptions (sf.options.getD []) cfg.status_ready cfg.status_inflight).opt_ready =
      some r)
    (hf : (resolveOptions (sf.options.getD []) cfg.status_ready cfg.status_inflight).opt_inflight =
      some f)
    (hg : gateBlocked items
      (resolveOptions (sf.options.getD []) cfg.status_ready cfg.status_inflight).opt_gate = false)
    (hsel : selectMin (candidatesOf items cfg.owner cfg.repo r) = some (item_id, number))
    (hd : oc.dispatch = DispatchResult.procFail ∨ oc.dispatch = DispatchResult.toolMissing) :
    (runMain cfg board items oc).outcome = Outcome.normal false ∧
    exitCode (runMain cfg board items oc).outcome = 0 ∧
    ((runMain cfg board items oc).calls.all (fun c => !isSetStatus c)) = true ∧
    Msg.noAction ∈ (runMain cfg board items oc).msgs ∧
    (((runMain cfg board items oc).calls.filter (fun c => isMutationCall c)).all
      (fun c => c == Call.createField)) = true := by
  unfold runMain
  rw [hsf]
  simp only []
  split
  · rename_i r2 f2 hr2 hf2
    obtain rfl : r = r2 := by rw [hr] at hr2; exact (Option.some.injEq _ _).mp hr2
    rw [runAfterResolve, if_neg (by rw [hg]; simp), hsel]
    unfold runFromSelection
    rcases hd with hd | hd <;> rw [hd]
    · refine ⟨rfl, rfl, ?_, ?_, ?_⟩
      · rcases setupCalls_cases board with h0 | h0 <;> rw [h0] <;> rfl
      · rcases setupMsgs_cases board with h0 | h0 <;> rw [h0] <;> simp
      · rcases setupCalls_cases board with h0 | h0 <;> rw [h0] <;> rfl
    · refine ⟨rfl, rfl, ?_, ?_, ?_⟩
      · rcases setupCalls_cases board with h0 | h0 <;> rw [h0] <;> rfl
      · rcases setupMsgs_cases board with h0 | h0 <;> rw [h0] <;> simp
      · rcases setupCalls_cases board with h0 | h0 <;> rw [h0] <;> rfl
  · rename_i h2
    exact (h2 r f hr hf).elim

/-- C7 witness: the containment statement applied to a concrete run
whose dispatch tool is missing. -/
theorem C7_dispatch_failure_contained_witness :
    (runMain cfgEx boardNoPr itemsOne ⟨DispatchResult.toolMissing, true, true, true⟩).outcome =
      Outcome.normal false ∧
    exitCode (runMain cfgEx boardNoPr itemsOne
      ⟨DispatchResult.toolMissing, true, true, true⟩).outcome = 0 ∧
    ((runMain cfgEx boardNoPr itemsOne
      ⟨DispatchResult.toolMissing, true, true, true⟩).calls.all (fun c => !isSetStatus c)) =
      true ∧
    Msg.noAction ∈
      (runMain cfgEx boardNoPr itemsOne ⟨DispatchResult.toolMissing, true, true, true⟩).msgs ∧
    (((runMain cfgEx boardNoPr itemsOne
      ⟨DispatchResult.toolMissing, true, true, true⟩).calls.filter
        (fun c => isMutationCall c)).all (fun c => c == Call.createField)) = true :=
  C7_dispatch_failure_contained cfgEx boardNoPr itemsOne
    ⟨DispatchResult.toolMissing, true, true, true⟩ ⟨"sf", "Status", some statusOptionsEx⟩
    "o1" "o2" "i1" 7 (by decide) (by decide) (by decide) (by decide) (by decide)
    (Or.inr rfl)

/-- C3, amended: option resolution is a single pass in which an option
matches when its normalized name equals the normalized wanted name OR
contains every token of it; exact matches are not preferred and the
LAST matching option in list order determines the resolved id, for the
ready and the in-flight name alike. -/
theorem C3_resolve_last_match (options : List StatusOption) (status_ready status_inflight : String) :
    (resolveOptions options status_ready status_inflight).opt_ready =
      lastMatchId options (normalize status_ready) ∧
    (resolveOptions options status_ready status_inflight).opt_inflight =
      lastMatchId options (normalize status_inflight) := by
  constructor
  · rw [resolveOptions, foldl_resolve_ready, foldl_overwrite_eq_getLast]
    unfold lastMatchId
    cases ((options.filter
      (fun o => optionMatches (normalize status_ready) (normalize o.name))).map
        (fun o => o.id)).getLast? <;> rfl
  · rw [resolveOptions, foldl_resolve_inflight, foldl_overwrite_eq_getLast]
    unfold lastMatchId
    cases ((options.filter
      (fun o => optionMatches (normalize status_inflight) (normalize o.name))).map
        (fun o => o.id)).getLast? <;> rfl

/-- C3 counterexample: with the option list holding an exact match
`Ready` before the token-subset match `Ready for Integration` for the
wanted name `ready`, the code resolves to the later subset match, while
the two-phase exact-first resolver of the spec resolves to the exact
match, so resolution is not exact-first with first-match-in-list-order
fallback. -/
theorem C3_cex_exact_not_preferred :
    (resolveOptions [⟨"A", "Ready"⟩, ⟨"B", "Ready for Integration"⟩] "ready"
      "In Flight").opt_ready = some "B" ∧
    resolveSpecOption [⟨"A", "Ready"⟩, ⟨"B", "Ready for Integration"⟩] "ready" = some "A" ∧
    (some "B" : Option String) ≠ some "A" := by
  decide

/-- C8: the items pagination starts with no cursor, always requests
pages of size 100, stops at the first page that reports no next page or
yields no usable cursor, and once such a page exists the result no
longer depends on the loop allowance and equals the concatenation of
the nodes of all fetched pages in fetch order. -/
theorem C8_pagination (pages : Nat → Page) (k : Nat)
    (hcont : ∀ i, i < k → contPage (pages i) = true)
    (hstop : contPage (pages k) = false) :
    (∀ fuel, k + 1 ≤ fuel → fetch_all_items pages fuel = joinNodes pages k) ∧
    (requestAt pages 0).after = none ∧
    (∀ i, (requestAt pages i).first = 100) := by
  refine ⟨?_, rfl, ?_⟩
  · intro fuel hfuel
    unfold fetch_all_items joinNodes
    have h := fetch_loop_eq pages k 0 fuel (by intro i hi; simpa using hcont i hi)
      (by simpa using hstop) hfuel
    simpa using h
  · intro i
    cases i <;> rfl

/-- C8 witness: the pagination statement applied to the three synthetic
pages, together with the evaluated concatenation. -/
theorem C8_pagination_witness :
    fetch_all_items pagesEx 3 = joinNodes pagesEx 2 ∧
    joinNodes pagesEx 2 = [itemReady "p0" 10, itemReady "p1" 11, itemReady "p2" 12] ∧
    (requestAt pagesEx 0).after = none ∧
    (requestAt pagesEx 1).first = 100 := by
  have h := C8_pagination pagesEx 2 (by decide) (by decide)
  exact ⟨h.1 3 (by decide), by decide, h.2.1, h.2.2 1⟩

lemma runFromSelection_ok_some (item_id : String) (number : Nat) (pf f : String)
    (oc : Oracles) (s : SessionUrl) (hd : oc.dispatch = DispatchResult.ok (some s))
    (hc : oc.commentOk = true) :
    runFromSelection item_id number (some pf) f oc =
      ⟨Outcome.normal true,
        [Call.dispatchTask number, Call.postComment number] ++
          (prWriteCalls item_id s.path oc.numOk oc.textOk).1 ++
          [Call.setStatus item_id f],
        [Msg.processing number, Msg.createdTask] ++
          (prWriteCalls item_id s.path oc.numOk oc.textOk).2⟩ := by
  unfold runFromSelection
  rw [hd]
  simp [hc]

lemma prWriteCalls_found (item_id path v : String) (numOk textOk : Bool)
    (hv : findPrSegment (pathParts path) = some v) :
    (prWriteCalls item_id path numOk textOk).1 =
      (if numOk then [Call.setNumber item_id (strToNat v)]
       else [Call.setNumber item_id (strToNat v), Call.setText item_id v]) := by
  unfold prWriteCalls
  rw [hv]
  cases numOk with
  | true => rfl
  | false => cases textOk <;> rfl

/-- C9, amended: only the first `pull` path segment that has a
successor segment is inspected: when that successor is the digit
string v the numeric mutation is attempted first with value v, the text
fallback carrying v is attempted exactly when the numeric mutation
fails, any residual failure is swallowed, and the status transition is
still issued; a later `pull`-number pair is ignored when the first
`pull` is followed by a non-numeric segment. -/
theorem C9_pr_write_fallback (cfg : Config) (board : Board) (items : List Item) (oc : Oracles)
    (sf : ProjField) (r f item_id : String) (number : Nat) (s : SessionUrl) (pf v : String)
    (hsf : statusFieldOf board.fields = some sf)
    (hr : (resolveOptions (sf.options.getD []) cfg.status_ready cfg.status_inflight).opt_ready =
      some r)
    (hf : (resolveOptions (sf.options.getD []) cfg.status_ready cfg.status_inflight).opt_inflight =
      some f)
    (hg : gateBlocked items
      (resolveOptions (sf.options.getD []) cfg.status_ready cfg.status_inflight).opt_gate = false)
    (hsel : selectMin (candidatesOf items cfg.owner cfg.repo r) = some (item_id, number))
    (hd : oc.dispatch = DispatchResult.ok (some s))
    (hc : oc.commentOk = true)
    (hpf : prResolved board = some pf)
    (hv : findPrSegment (pathParts s.path) = some v) :
    (runMain cfg board items oc).calls =
      setupCalls board ++
        ([Call.dispatchTask number, Call.postComment number] ++
          (if oc.numOk then [Call.setNumber item_id (strToNat v)]
           else [Call.setNumber item_id (strToNat v), Call.setText item_id v]) ++
          [Call.setStatus item_id f]) ∧
    (runMain cfg board items oc).outcome = Outcome.normal true := by
  unfold runMain
  rw [hsf]
  simp only []
  split
  · rename_i r2 f2 hr2 hf2
    obtain rfl : r = r2 := by rw [hr] at hr2; exact (Option.some.injEq _ _).mp hr2
    obtain rfl : f = f2 := by rw [hf] at hf2; exact (Option.some.injEq _ _).mp hf2
    rw [runAfterResolve, if_neg (by rw [hg]; simp)]
    simp only [hsel]
    rw [hpf, runFromSelection_ok_some item_id number pf f oc s hd hc,
      prWriteCalls_found item_id s.path v oc.numOk oc.textOk hv]
    exact ⟨rfl, rfl⟩
  · rename_i h2
    exact (h2 r f hr hf).elim

/-- C9 counterexample: the session path `/a/pull/x/pull/42` contains a
`pull` segment followed by the numeric segment `42`, yet the run
attempts no numeric and no text value mutation, because the code stops
at the first `pull` segment, whose successor is not numeric. -/
theorem C9_cex_first_pull_wins :
    pathParts "/a/pull/x/pull/42" = ["a", "pull", "x", "pull", "42"] ∧
    (pathParts "/a/pull/x/pull/42")[3]? = some "pull" ∧
    (pathParts "/a/pull/x/pull/42")[4]? = some "42" ∧
    isDigits "42" = true ∧
    (runMain cfgEx boardWithPr itemsOne
      ⟨DispatchResult.ok (some ⟨"https://x/a/pull/x/pull/42", "/a/pull/x/pull/42"⟩), true, true,
        true⟩).calls =
      [Call.dispatchTask 7, Call.postComment 7, Call.setStatus "i1" "o2"] := by
  decide

/-- C9 witness: the fallback statement applied to a concrete run whose
session path is `/own/rep/pull/42/x` and whose numeric and text
mutations both fail: the numeric attempt comes first, the text fallback
follows, and the status transition is still issued. -/
theorem C9_pr_write_fallback_witness :
    (runMain cfgEx boardWithPr itemsOne ocC9w).calls =
      setupCalls boardWithPr ++
        ([Call.dispatchTask 7, Call.postComment 7] ++
          (if ocC9w.numOk then [Call.setNumber "i1" (strToNat "42")]
           else [Call.setNumber "i1" (strToNat "42"), Call.setText "i1" "42"]) ++
          [Call.setStatus "i1" "o2"]) ∧
    (runMain cfgEx boardWithPr itemsOne ocC9w).outcome = Outcome.normal true :=
  C9_pr_write_fallback cfgEx boardWithPr itemsOne ocC9w ⟨"sf", "Status", some statusOptionsEx⟩
    "o1" "o2" "i1" 7 ⟨"https://x/own/rep/pull/42/x", "/own/rep/pull/42/x"⟩ "pf" "42"
    (by decide) (by decide) (by decide) (by decide) (by decide) rfl rfl (by decide) (by decide)

/-- C10: each item contributes at most one candidate pair even when
several of its field values carry the ready option id: the multiset of
candidate item ids embeds into the multiset of board item ids, so when
the board items have distinct ids the candidate list holds no duplicate
item id. -/
theorem C10_unique_candidate_per_item (items : List Item) (owner repo ready : String) :
    (∀ i : String, ((candidatesOf items owner repo ready).map Prod.fst).count i ≤
      (items.map Item.id).count i) ∧
    ((items.map Item.id).Nodup → ((candidatesOf items owner repo ready).map Prod.fst).Nodup) := by
  have hsub := candidates_fst_sublist items owner repo ready
  exact ⟨fun i => hsub.count_le i, fun hnd => hnd.sublist hsub⟩

/-- C10 witness: the statement applied to a board on which one item
carries the ready option in two field values. -/
theorem C10_unique_candidate_per_item_witness :
    ((candidatesOf itemsDouble "own" "rep" "o1").map Prod.fst).count "i1" ≤
      (itemsDouble.map Item.id).count "i1" ∧
    ((candidatesOf itemsDouble "own" "rep" "o1").map Prod.fst).Nodup :=
  ⟨(C10_unique_candidate_per_item itemsDouble "own" "rep" "o1").1 "i1",
    (C10_unique_candidate_per_item itemsDouble "own" "rep" "o1").2 (by decide)⟩

end Maverick
